import Mathlib

/-!
Verification development for the RNTuple in-memory core: the schema model
(`RNTupleModel.cxx`), the projected-field validation (`RProjectedFields`),
the page pool, and the feature-flag compatibility check.

Fields form a tree with non-owning parent back-pointers.  We embed a field
tree as a flat environment `List FieldNode`, where a field is identified by
its index and carries an optional parent index.  This mirrors the C++ object
graph (pointer identity becomes index identity).
-/

/-- Structural kind of a field, `ENTupleStructure` in the source. -/
inductive ENTupleStructure where
  | kLeaf
  | kRecord
  | kCollection
  | kVariant
  | kReference
  | kUnsplit
deriving Repr, DecidableEq, BEq

/-- One field of the schema tree: name, type name, structural kind,
repetition count, parent back-pointer (index into the environment), and
whether the field is a cardinality field (`RCardinalityField`). -/
structure FieldNode where
  fieldName : String
  typeName : String
  structKind : ENTupleStructure
  nRepetitions : Nat
  parent : Option Nat
  isCardinality : Bool
deriving Repr, DecidableEq

/-- Field lookup in the environment. -/
def getNode (env : List FieldNode) (i : Nat) : Option FieldNode := env[i]?

/-- Embeds `GetStructure()` of the field at index `i`. -/
def structOf (env : List FieldNode) (i : Nat) : Option ENTupleStructure :=
  (getNode env i).map (·.structKind)

/-- Embeds `GetParent()` of the field at index `i`. -/
def parentOf (env : List FieldNode) (i : Nat) : Option Nat :=
  (getNode env i).bind (·.parent)

/-- The parent-walk of `fnHasArrayParent`: follow parent pointers, return true
as soon as a parent with nonzero repetition count is found.  Fuelled by the
environment size, which bounds every parent chain. -/
def hasArrayParentFrom (env : List FieldNode) : Nat → Option Nat → Bool
  | _, none => false
  | 0, some _ => false
  | fuel+1, some p =>
    match getNode env p with
    | none => false
    | some n => if n.nRepetitions > 0 then true else hasArrayParentFrom env fuel n.parent

/-- Embeds `fnHasArrayParent` of `RProjectedFields::EnsureValidMapping`: does any
ancestor of `f` have a nonzero repetition count? -/
def fnHasArrayParent (env : List FieldNode) (f : Nat) : Bool :=
  hasArrayParentFrom env env.length (parentOf env f)

/-- The parent-walk of `fnBreakPoint`: follow parent pointers and return the
first ancestor whose structural kind is neither Record nor Leaf; `none` when
the walk reaches past the zero field. -/
def breakPointFrom (env : List FieldNode) : Nat → Option Nat → Option Nat
  | _, none => none
  | 0, some _ => none
  | fuel+1, some p =>
    match getNode env p with
    | none => none
    | some n =>
      if n.structKind != ENTupleStructure.kRecord && n.structKind != ENTupleStructure.kLeaf then
        some p
      else breakPointFrom env fuel n.parent

/-- Embeds `fnBreakPoint` of `RProjectedFields::EnsureValidMapping`: the first
non-record, non-leaf ancestor of `f`, or `none` upon reaching the zero field. -/
def fnBreakPoint (env : List FieldNode) (f : Nat) : Option Nat :=
  breakPointFrom env env.length (parentOf env f)

/-- Outcome of `EnsureValidMapping`: success, a descriptive `R__FAIL`, the
out-of-range exception of `fieldMap.at`, or a null-pointer dereference (the
C++ would crash; we keep it as an explicit outcome). -/
inductive MappingResult where
  | success
  | failure (msg : String)
  | keyMissing
  | nullDeref
deriving Repr, DecidableEq

/-- Lookup in the target-to-source field map (`FieldMap_t`); first match wins,
like `std::unordered_map` with insert-does-not-overwrite. -/
def lookupFieldMap (fieldMap : List (Nat × Nat)) (k : Nat) : Option Nat :=
  (fieldMap.find? (fun p => p.1 == k)).map (·.2)

/-- Embeds `RProjectedFields::EnsureValidMapping`, line by line from the source:
structural compatibility, type-name equality for leaf/unsplit, the
fixed-size-array ancestor check, and the break-point checks.  Note that the
second break-point check (the one whose error message says "target
structure") tests `sourceBreakPoint->GetStructure()`, exactly as the C++
does, and dereferences `sourceBreakPoint` even when it is null. -/
def EnsureValidMapping (env : List FieldNode) (target : Nat)
    (fieldMap : List (Nat × Nat)) : MappingResult :=
  match lookupFieldMap fieldMap target with
  | none => .keyMissing
  | some source =>
    match getNode env source, getNode env target with
    | none, _ => .keyMissing
    | _, none => .keyMissing
    | some snode, some tnode =>
      let hasCompatibleStructure :=
        (snode.structKind == tnode.structKind) ||
        ((snode.structKind == ENTupleStructure.kCollection) && tnode.isCardinality)
      if !hasCompatibleStructure then
        .failure ("field mapping structural mismatch: " ++ snode.fieldName ++
                  " --> " ++ tnode.fieldName)
      else if ((snode.structKind == ENTupleStructure.kLeaf) ||
               (snode.structKind == ENTupleStructure.kUnsplit)) &&
              tnode.typeName != snode.typeName then
        .failure ("field mapping type mismatch: " ++ snode.fieldName ++
                  " --> " ++ tnode.fieldName)
      else if fnHasArrayParent env source || fnHasArrayParent env target then
        .failure "unsupported field mapping across fixed-size arrays"
      else
        let sourceBreakPoint := fnBreakPoint env source
        if (match sourceBreakPoint with
            | some b => structOf env b != some ENTupleStructure.kCollection
            | none => false) then
          .failure "unsupported field mapping (source structure)"
        else
          let targetBreakPoint := fnBreakPoint env target
          match targetBreakPoint, sourceBreakPoint with
          | some _, none => .nullDeref
          | tbp, sbp =>
            if (match tbp, sbp with
                | some _, some sb => structOf env sb != some ENTupleStructure.kCollection
                | _, _ => false) then
              .failure "unsupported field mapping (target structure)"
            else
              match sbp, tbp with
              | none, none => .success
              | some sb, some tb =>
                if sb == tb then .success
                else
                  match lookupFieldMap fieldMap tb with
                  | some m =>
                    if m == sb then .success
                    else .failure ("field mapping structure mismatch: " ++
                                   snode.fieldName ++ " --> " ++ tnode.fieldName)
                  | none => .failure ("field mapping structure mismatch: " ++
                                      snode.fieldName ++ " --> " ++ tnode.fieldName)
              | _, _ => .failure ("field mapping structure mismatch: " ++
                                  snode.fieldName ++ " --> " ++ tnode.fieldName)

/-- Environment for the C1 failing input: a source leaf under a collection,
and a target leaf under a variant; the variant is mapped to the collection. -/
def envC1 : List FieldNode :=
  [ ⟨"collS", "CollOfFloat", ENTupleStructure.kCollection, 0, none, false⟩,
    ⟨"s", "float", ENTupleStructure.kLeaf, 0, some 0, false⟩,
    ⟨"varT", "VariantOfFloat", ENTupleStructure.kVariant, 0, none, false⟩,
    ⟨"t", "float", ENTupleStructure.kLeaf, 0, some 2, false⟩ ]

/-- Field map for the C1 failing input: target leaf 3 mapped to source leaf 1,
and the target's break-point (variant 2) mapped to the source's break-point
(collection 0). -/
def fieldMapC1 : List (Nat × Nat) := [(3, 1), (2, 0)]


/-!
The schema model (`RNTupleModel`).  A field handed to `AddField` or
`AddProjectedField` is a tree (`RFieldBase` with owned children); attaching
it flattens it into the model's field environment in pre-order, which is the
order of the C++ `RSchemaIterator`.
-/

/-- An unattached field tree, as passed to `AddField`/`AddProjectedField`. -/
inductive FTree where
  | node (fieldName typeName : String) (structKind : ENTupleStructure)
         (nRepetitions : Nat) (isCardinality : Bool) (children : List FTree)

/-- Name of the root of an unattached field tree (`GetFieldName`). -/
def FTree.name : FTree → String
  | .node nm _ _ _ _ _ => nm

mutual
/-- Flatten a field tree into environment nodes in pre-order, the root taking
index `nextId` and parent pointer `parent`; returns the nodes and the next
free index. -/
def flattenTree (parent : Option Nat) (nextId : Nat) : FTree → List FieldNode × Nat
  | .node nm ty sk rep card cs =>
    let (rest, fin) := flattenList (some nextId) (nextId + 1) cs
    (⟨nm, ty, sk, rep, parent, card⟩ :: rest, fin)

/-- Flatten a list of sibling trees, assigning indices from `nextId`. -/
def flattenList (parent : Option Nat) (nextId : Nat) : List FTree → List FieldNode × Nat
  | [] => ([], nextId)
  | c :: cs =>
    let (ns, n1) := flattenTree parent nextId c
    let (ms, n2) := flattenList parent n1 cs
    (ns ++ ms, n2)
end

/-- The zero field at the root of a model's field tree (`RFieldZero`): empty
name, record-like structure. -/
def zeroNode : FieldNode := ⟨"", "", ENTupleStructure.kRecord, 0, none, false⟩

/-- An entry (`REntry`): the model id and schema id it was created against,
and the number of values bound into it. -/
structure EntryState where
  modelId : Nat
  schemaId : Nat
  nValues : Nat
deriving Repr, DecidableEq

/-- Embeds `REntry::AddValue`: bind one more value. -/
def EntryState.addValue (e : EntryState) : EntryState :=
  { e with nValues := e.nValues + 1 }

/-- The state of an `RNTupleModel`: the main field tree (index 0 is the zero
field), the set of used top-level field names, the optional default entry,
the projected-fields sub-tree and its target-to-source map (projected index
to main-tree index), the frozen flag, the two identifiers, and the
description string. -/
structure ModelState where
  env : List FieldNode
  fieldNames : List String
  defaultEntry : Option EntryState
  projEnv : List FieldNode
  projMap : List (Nat × Nat)
  isFrozen : Bool
  modelId : Nat
  schemaId : Nat
  descriptionText : String
deriving Repr, DecidableEq

/-- Embeds `GetNewModelId`: pre-increment of the process-wide atomic counter;
returns the fresh id and the new counter value. -/
def getNewModelId (c : Nat) : Nat × Nat := (c + 1, c + 1)

/-- Embeds `RNTupleModel::CreateBare` (with the private constructor): fresh model id,
schema id equal to it, empty trees, no default entry, unfrozen. -/
def mkBareModel (c : Nat) : ModelState × Nat :=
  let (mid, c') := getNewModelId c
  ({ env := [zeroNode], fieldNames := [], defaultEntry := none,
     projEnv := [zeroNode], projMap := [], isFrozen := false,
     modelId := mid, schemaId := mid, descriptionText := "" }, c')

/-- Embeds `RNTupleModel::Create`: like `CreateBare` plus a default entry stamped
with the model's ids. -/
def mkModel (c : Nat) : ModelState × Nat :=
  let (m, c') := mkBareModel c
  ({ m with defaultEntry := some ⟨m.modelId, m.schemaId, 0⟩ }, c')

/-- Embeds `GetSubFields` order: the children of field `i`, in attach order. -/
def childrenOf (env : List FieldNode) (i : Nat) : List Nat :=
  (List.range env.length).filter (fun j => parentOf env j == some i)

/-- One segment step of `FindField`: the child of `cur` named `seg`. -/
def findSub (env : List FieldNode) (cur : Nat) (seg : String) : Option Nat :=
  (childrenOf env cur).find? (fun j => (getNode env j).map (·.fieldName) == some seg)

/-- The segment loop of `FindField`. -/
def findFieldAux (env : List FieldNode) : Nat → List String → Option Nat
  | cur, [] => some cur
  | cur, s :: rest =>
    match findSub env cur s with
    | some j => findFieldAux env j rest
    | none => none

/-- Character-list splitting at a separator, used to cut a dotted path into
segments (`ROOT::Split`; `StringUtils` is not among the given sources, the
splitting behavior matches the standard separator split). -/
def splitChars (sep : Char) : List Char → List (List Char)
  | [] => [[]]
  | c :: cs =>
    let rest := splitChars sep cs
    if c == sep then [] :: rest
    else
      match rest with
      | [] => [[c]]
      | r :: rs => (c :: r) :: rs

/-- Split a field path at the dots. -/
def splitOnDot (s : String) : List String :=
  (splitChars '.' s.data).map (fun cs => String.mk cs)

/-- Embeds `RNTupleModel::FindField`: empty name gives `none`; otherwise
segment-by-segment child lookup from the zero field, `none` on any missing
segment. -/
def FindField (st : ModelState) (fieldName : String) : Option Nat :=
  if fieldName.isEmpty then none
  else findFieldAux st.env 0 (splitOnDot fieldName)

/-- Modelled from the spec: `RFieldBase::EnsureValidFieldName` is not among
the given sources; §7 lists "invalid field name" as a structural validation
error and §3 uses the dot as the qualified-path separator, so we take the
empty name and names containing a dot to be the invalid ones. -/
def validFieldName (s : String) : Bool := !s.isEmpty && !(s.data.contains '.')

/-- Embeds `RNTupleModel::EnsureValidFieldName`: name validity, then the
duplicate-name check against the used-name set; `none` means valid. -/
def ensureValidFieldNameCheck (st : ModelState) (fieldName : String) : Option String :=
  if !validFieldName fieldName then some ("invalid field name: " ++ fieldName)
  else if st.fieldNames.contains fieldName then
    some ("field name '" ++ fieldName ++ "' already exists in NTuple model")
  else none

/-- Attach an unattached tree under parent `parentId` of `env` (the C++
`RFieldBase::Attach` reached through `fFieldZero->Attach`). -/
def attachTree (env : List FieldNode) (parentId : Nat) (t : FTree) : List FieldNode :=
  env ++ (flattenTree (some parentId) env.length t).1

/-- Embeds `RNTupleModel::AddField`: frozen check, null check, name check; then bind
a value into the default entry when one exists, record the name, attach the
field.  Returns the state after the call and the error, if any. -/
def AddField (st : ModelState) (field : Option FTree) : ModelState × Option String :=
  if st.isFrozen then (st, some "invalid attempt to modify frozen model")
  else
    match field with
    | none => (st, some "null field")
    | some f =>
      match ensureValidFieldNameCheck st f.name with
      | some e => (st, some e)
      | none =>
        let st1 := { st with defaultEntry := st.defaultEntry.map EntryState.addValue }
        let st2 := { st1 with fieldNames := st1.fieldNames ++ [f.name] }
        ({ st2 with env := attachTree st2.env 0 f }, none)

/-- Qualified (dotted) field name walk: join ancestor names, skipping the
empty-named zero field (`GetQualifiedFieldName`). -/
def qualifiedNameAux (env : List FieldNode) : Nat → Nat → String
  | 0, _ => ""
  | fuel+1, i =>
    match getNode env i with
    | none => ""
    | some n =>
      match n.parent with
      | none => n.fieldName
      | some p =>
        let q := qualifiedNameAux env fuel p
        if q.isEmpty then n.fieldName else q ++ "." ++ n.fieldName

/-- Embeds `GetQualifiedFieldName` of the field at index `i`. -/
def qualifiedName (env : List FieldNode) (i : Nat) : String :=
  qualifiedNameAux env env.length i

/-- An operation failure: an `RResult` error or exception (`err`), or a fatal
outcome the C++ does not report in an orderly way — a null dereference or a
failed `std::unordered_map::at` (`fatal`). -/
inductive OpError where
  | err (msg : String)
  | fatal (what : String)
deriving Repr, DecidableEq

/-- The source-resolution loop of `RNTupleModel::AddProjectedField`: for each
target index (in the combined environment), resolve `mapping` applied to its
qualified name through `FindField`.  On a miss the C++ reports
`mapping(fieldName)` with the root's name, which we reproduce. -/
def resolveSources (st : ModelState) (combined : List FieldNode)
    (mapping : String → String) (rootName : String) :
    List Nat → Except String (List (Nat × Nat))
  | [] => Except.ok []
  | i :: rest =>
    match FindField st (mapping (qualifiedName combined i)) with
    | none => Except.error ("no such field: " ++ mapping rootName)
    | some src =>
      match resolveSources st combined mapping rootName rest with
      | Except.error e => Except.error e
      | Except.ok ps => Except.ok ((i, src) :: ps)

/-- The descendant-validation loop of `RProjectedFields::Add`: first
non-success verdict of `EnsureValidMapping` over the sub fields, if any. -/
def validateSubFields (combined : List FieldNode) (fieldMap : List (Nat × Nat)) :
    List Nat → Option MappingResult
  | [] => none
  | i :: rest =>
    match EnsureValidMapping combined i fieldMap with
    | .success => validateSubFields combined fieldMap rest
    | r => some r

/-- Embeds `RProjectedFields::Add`: validate the mapping for the target field and
then for every descendant; only if all succeed, merge the field map into the
table and attach the field to the projected zero field.  `base` is the index
of the target root in `combined`, `subIds` the indices of its proper
descendants in pre-order. -/
def ProjAdd (st : ModelState) (combined : List FieldNode) (base : Nat) (f : FTree)
    (fieldMap : List (Nat × Nat)) (subIds : List Nat) : ModelState × Option OpError :=
  match EnsureValidMapping combined base fieldMap with
  | .failure m => (st, some (.err m))
  | .nullDeref => (st, some (.fatal "null pointer dereference"))
  | .keyMissing => (st, some (.fatal "field map lookup failed"))
  | .success =>
    match validateSubFields combined fieldMap subIds with
    | some (.failure m) => (st, some (.err m))
    | some .nullDeref => (st, some (.fatal "null pointer dereference"))
    | some .keyMissing => (st, some (.fatal "field map lookup failed"))
    | some .success => (st, none)
    | none =>
      let d := st.projEnv.length
      let newEntries := fieldMap.map (fun p => (p.1 - base + d, p.2))
      ({ st with projMap := st.projMap ++ newEntries,
                 projEnv := st.projEnv ++ (flattenTree (some 0) d f).1 }, none)

/-- Embeds `RNTupleModel::AddProjectedField`: frozen check, null check; resolve the
source of the new field and of every descendant through the mapping function;
then the name check; then `RProjectedFields::Add`; only on success record the
field name. -/
def AddProjectedField (st : ModelState) (field : Option FTree)
    (mapping : String → String) : ModelState × Option OpError :=
  if st.isFrozen then (st, some (.err "invalid attempt to modify frozen model"))
  else
    match field with
    | none => (st, some (.err "null field"))
    | some f =>
      let fieldName := f.name
      let base := st.env.length
      let flat := (flattenTree none base f).1
      let combined := st.env ++ flat
      let subIds := (List.range (flat.length - 1)).map (fun k => base + 1 + k)
      match FindField st (mapping fieldName) with
      | none => (st, some (.err ("no such field: " ++ mapping fieldName)))
      | some src0 =>
        match resolveSources st combined mapping fieldName subIds with
        | Except.error e => (st, some (.err e))
        | Except.ok pairs =>
          let fieldMap := (base, src0) :: pairs
          match ensureValidFieldNameCheck st fieldName with
          | some e => (st, some (.err e))
          | none =>
            match ProjAdd st combined base f fieldMap subIds with
            | (st2, some e) => (st2, some e)
            | (st2, none) =>
              ({ st2 with fieldNames := st2.fieldNames ++ [fieldName] }, none)

/-- Embeds `RNTupleModel::Freeze`: set the frozen flag; nothing else. -/
def Freeze (st : ModelState) : ModelState := { st with isFrozen := true }

/-- Embeds `RNTupleModel::Unfreeze`: no-op when not frozen; otherwise assign a fresh
model id, set the schema id to it, restamp the default entry, and clear the
frozen flag.  Threads the process-wide id counter. -/
def Unfreeze (st : ModelState) (c : Nat) : ModelState × Nat :=
  if !st.isFrozen then (st, c)
  else
    let (mid, c') := getNewModelId c
    ({ st with modelId := mid, schemaId := mid,
               defaultEntry := st.defaultEntry.map
                 (fun e => { e with modelId := mid, schemaId := mid }),
               isFrozen := false }, c')

/-- Embeds `RNTupleModel::Clone`: deep-copy the trees, names, description, projected
fields; fresh model id; the schema id is kept when the source is frozen and
set to the new model id otherwise; a fresh default entry is built when the
source had one. -/
def CloneModel (st : ModelState) (c : Nat) : ModelState × Nat :=
  let (mid, c') := getNewModelId c
  let sid := if st.isFrozen then st.schemaId else mid
  let entry :=
    if st.defaultEntry.isSome then
      some (⟨mid, sid, (childrenOf st.env 0).length⟩ : EntryState)
    else none
  ({ st with modelId := mid, schemaId := sid, defaultEntry := entry }, c')

/-- Embeds `RNTupleModel::SetDescription`: frozen check, then store the text. -/
def SetDescription (st : ModelState) (d : String) : ModelState × Option String :=
  if st.isFrozen then (st, some "invalid attempt to modify frozen model")
  else ({ st with descriptionText := d }, none)

/-- The top-level fields, i.e. the sub fields of the zero field. -/
def topLevelFields (st : ModelState) : List Nat := childrenOf st.env 0

/-- Embeds `RNTupleModel::GetFieldZero`: requires a frozen model. -/
def GetFieldZero (st : ModelState) : Except String (List FieldNode) :=
  if !st.isFrozen then
    Except.error "invalid attempt to get mutable zero field of unfrozen model"
  else Except.ok st.env

/-- The non-const `RNTupleModel::GetDefaultEntry`: only the bare-model check,
no frozen check. -/
def GetDefaultEntry (st : ModelState) : Except String EntryState :=
  match st.defaultEntry with
  | none => Except.error "invalid attempt to use default entry of bare model"
  | some e => Except.ok e

/-- The const `RNTupleModel::GetDefaultEntry`: frozen check first, then the
bare-model check. -/
def GetDefaultEntryConst (st : ModelState) : Except String EntryState :=
  if !st.isFrozen then
    Except.error "invalid attempt to get default entry of unfrozen model"
  else
    match st.defaultEntry with
    | none => Except.error "invalid attempt to use default entry of bare model"
    | some e => Except.ok e

/-- Embeds `RNTupleModel::CreateEntry`: requires a frozen model, then an entry
stamped with the model's ids, one owned value per top-level field. -/
def CreateEntry (st : ModelState) : Except String EntryState :=
  if !st.isFrozen then
    Except.error "invalid attempt to create entry of unfrozen model"
  else Except.ok ⟨st.modelId, st.schemaId, (topLevelFields st).length⟩

/-- Embeds `RNTupleModel::CreateBareEntry`: requires a frozen model, then an entry
stamped with the model's ids, one unbound value per top-level field. -/
def CreateBareEntry (st : ModelState) : Except String EntryState :=
  if !st.isFrozen then
    Except.error "invalid attempt to create entry of unfrozen model"
  else Except.ok ⟨st.modelId, st.schemaId, (topLevelFields st).length⟩

/-- A field token (`REntry::RFieldToken`): position among the top-level
fields plus the schema id it was issued under. -/
structure RFieldToken where
  index : Nat
  schemaId : Nat
deriving Repr, DecidableEq

/-- Embeds `RNTupleModel::GetToken`: scan the top-level fields for the name; there
is no frozen check in the source. -/
def GetToken (st : ModelState) (fieldName : String) : Except String RFieldToken :=
  let tops := topLevelFields st
  match tops.findIdx? (fun j => (getNode st.env j).map (·.fieldName) == some fieldName) with
  | none => Except.error ("invalid field name: " ++ fieldName)
  | some idx => Except.ok ⟨idx, st.schemaId⟩

/-- Embeds `RNTupleModel::CreateBulk`: frozen check, then `FindField`; returns the
index of the field backing the bulk. -/
def CreateBulk (st : ModelState) (fieldName : String) : Except String Nat :=
  if !st.isFrozen then
    Except.error "invalid attempt to create bulk of unfrozen model"
  else
    match FindField st fieldName with
    | none => Except.error ("no such field: " ++ fieldName)
    | some i => Except.ok i

/-- The open changeset of an `RUpdater` (`RNTupleModelChangeset`): the staged
field and projected-field additions, by root field name. -/
structure ChangesetState where
  addedFields : List String
  addedProjectedFields : List String
deriving Repr, DecidableEq

/-- Modelled from the spec: `RNTupleModelChangeset::IsEmpty` is declared in
the header, which is not among the given sources; per §4.2 the commit hands
the changeset to the sink "only if the changeset is non-empty", so emptiness
is having staged neither fields nor projected fields. -/
def ChangesetState.isEmpty (cs : ChangesetState) : Bool :=
  cs.addedFields.isEmpty && cs.addedProjectedFields.isEmpty

/-- An `RNTupleModel::RUpdater` together with the model it updates: the id
counter, the live model, the open changeset, and `fNewModelId`.  Modelled
from the spec: the in-class initializer of `fNewModelId` is in the header;
§4.2 says `BeginUpdate` "swaps in a placeholder model id of zero", so a fresh
updater holds `newModelId = 0`. -/
structure Updater where
  counter : Nat
  model : ModelState
  changeset : ChangesetState
  newModelId : Nat
deriving Repr, DecidableEq

/-- A fresh updater over a model, with an empty changeset and a zero
placeholder id. -/
def mkUpdater (m : ModelState) (c : Nat) : Updater := ⟨c, m, ⟨[], []⟩, 0⟩

/-- A call to the sink's `UpdateSchema`: the committed changeset and the
writer's entry count at commit time. -/
structure SinkCall where
  changeset : ChangesetState
  nEntries : Nat
deriving Repr, DecidableEq

/-- Embeds `RUpdater::BeginUpdate`: unfreeze the model, then swap the model id with
`fNewModelId`. -/
def BeginUpdate (u : Updater) : Updater :=
  let (m, c') := Unfreeze u.model u.counter
  { u with counter := c',
           model := { m with modelId := u.newModelId },
           newModelId := m.modelId }

/-- Embeds `RUpdater::CommitUpdate`: freeze the model, swap the model id back, and
if the changeset is non-empty, move it out and hand it to the sink's
`UpdateSchema` together with the writer's current entry count. -/
def CommitUpdate (u : Updater) (writerNEntries : Nat) : Updater × Option SinkCall :=
  let m := Freeze u.model
  let u' := { u with model := { m with modelId := u.newModelId },
                     newModelId := m.modelId }
  if u.changeset.isEmpty then (u', none)
  else ({ u' with changeset := ⟨[], []⟩ }, some ⟨u.changeset, writerNEntries⟩)

/-- Embeds `RUpdater::AddField`: delegate to the model; on success stage the added
field in the changeset. -/
def UpdaterAddField (u : Updater) (field : Option FTree) : Updater × Option String :=
  match AddField u.model field with
  | (m, some msg) => ({ u with model := m }, some msg)
  | (m, none) =>
    ({ u with model := m,
              changeset := { u.changeset with
                addedFields := u.changeset.addedFields ++
                  [(field.map FTree.name).getD ""] } }, none)

/-- Embeds `RUpdater::AddProjectedField`: delegate to the model; on success stage
the added projected field in the changeset. -/
def UpdaterAddProjectedField (u : Updater) (field : Option FTree)
    (mapping : String → String) : Updater × Option OpError :=
  match AddProjectedField u.model field mapping with
  | (m, some e) => ({ u with model := m }, some e)
  | (m, none) =>
    ({ u with model := m,
              changeset := { u.changeset with
                addedProjectedFields := u.changeset.addedProjectedFields ++
                  [(field.map FTree.name).getD ""] } }, none)

/-- The reachable states of a model with its id counter and updater.
`create`/`createBare` start from any counter value; every mutating entry
point of `RNTupleModel.cxx` is a step.  `beginUpdate` is taken with no
update window open (`newModelId = 0`), matching the alternating
begin/commit protocol of the updater. -/
inductive Reached : Updater → Prop where
  | create (c : Nat) : Reached (mkUpdater (mkModel c).1 (mkModel c).2)
  | createBare (c : Nat) : Reached (mkUpdater (mkBareModel c).1 (mkBareModel c).2)
  | freeze {u : Updater} : Reached u → Reached { u with model := Freeze u.model }
  | unfreeze {u : Updater} : Reached u →
      Reached { u with model := (Unfreeze u.model u.counter).1,
                       counter := (Unfreeze u.model u.counter).2 }
  | addField {u : Updater} (f : Option FTree) : Reached u →
      Reached { u with model := (AddField u.model f).1 }
  | addProjectedField {u : Updater} (f : Option FTree) (mp : String → String) :
      Reached u → Reached { u with model := (AddProjectedField u.model f mp).1 }
  | setDescription {u : Updater} (d : String) : Reached u →
      Reached { u with model := (SetDescription u.model d).1 }
  | cloneNew {u : Updater} : Reached u →
      Reached (mkUpdater (CloneModel u.model u.counter).1 (CloneModel u.model u.counter).2)
  | cloneOrig {u : Updater} : Reached u →
      Reached { u with counter := (CloneModel u.model u.counter).2 }
  | beginUpdate {u : Updater} : Reached u → u.newModelId = 0 → Reached (BeginUpdate u)
  | commitUpdate {u : Updater} (n : Nat) : Reached u → Reached (CommitUpdate u n).1
  | updAddField {u : Updater} (f : Option FTree) : Reached u →
      Reached (UpdaterAddField u f).1
  | updAddProjectedField {u : Updater} (f : Option FTree) (mp : String → String) :
      Reached u → Reached (UpdaterAddProjectedField u f mp).1

/-!
The page pool.  The implementation of `RPage`/`RPagePool` is not among the
given sources (only the `Pages` tests are), so the definitions below are
modelled from the spec, §3 and §4.1.
-/

/-- Modelled from the spec: the cluster part of a page window — the cluster
id and the index offset of the cluster's first row within the global row
range (`RPage::RClusterInfo`, implementation not among the given sources). -/
structure RClusterInfo where
  clusterId : Nat
  indexOffset : Nat
deriving Repr, DecidableEq

/-- Modelled from the spec (§3 "Page", §4.1): a fixed-capacity buffer of
homogeneous elements with a byte size, an element count, and a cluster
window; a page can be null, the pool's not-found sentinel.  The `RPage`
implementation is not among the given sources. -/
structure RPage where
  isNull : Bool
  elementSize : Nat
  maxElements : Nat
  nElements : Nat
  globalRangeFirst : Nat
  clusterInfo : RClusterInfo
deriving Repr, DecidableEq

/-- The null page, returned by the pool on a lookup miss. -/
def nullRPage : RPage := ⟨true, 0, 0, 0, 0, ⟨0, 0⟩⟩

/-- Modelled from the spec: `PageAllocator.NewPage(elementSize, maxElements)`
gives a non-null page with element count 0 and an empty cluster window. -/
def newRPage (elementSize maxElements : Nat) : RPage :=
  ⟨false, elementSize, maxElements, 0, 0, ⟨0, 0⟩⟩

/-- Embeds `Page.GrowUnchecked(n)`: set the element count (no bounds check). -/
def RPage.growUnchecked (p : RPage) (n : Nat) : RPage := { p with nElements := n }

/-- Embeds `Page.SetWindow(globalRangeStart, clusterInfo)`: stamp the row-range
identity. -/
def RPage.setWindow (p : RPage) (globalRangeStart : Nat) (ci : RClusterInfo) : RPage :=
  { p with globalRangeFirst := globalRangeStart, clusterInfo := ci }

/-- Last global row index covered by the page. -/
def RPage.globalRangeLast (p : RPage) : Nat := p.globalRangeFirst + p.nElements - 1

/-- First cluster-local row index covered by the page. -/
def RPage.clusterRangeFirst (p : RPage) : Nat :=
  p.globalRangeFirst - p.clusterInfo.indexOffset

/-- Last cluster-local row index covered by the page. -/
def RPage.clusterRangeLast (p : RPage) : Nat :=
  p.clusterRangeFirst + p.nElements - 1

/-- Does the page's window contain the global row index `i`?  A null page
contains nothing. -/
def RPage.containsGlobal (p : RPage) (i : Nat) : Bool :=
  !p.isNull && decide (p.globalRangeFirst ≤ i) &&
  decide (i < p.globalRangeFirst + p.nElements)

/-- Does the page's window contain cluster-local index `idx` of cluster
`cid`? -/
def RPage.containsCluster (p : RPage) (cid idx : Nat) : Bool :=
  !p.isNull && (p.clusterInfo.clusterId == cid) &&
  decide (p.clusterRangeFirst ≤ idx) &&
  decide (idx < p.clusterRangeFirst + p.nElements)

/-- A pool key (`RPagePool::RKey`): column id and a stable tag for the
runtime element type. -/
structure RKey where
  columnId : Nat
  typeTag : Nat
deriving Repr, DecidableEq, BEq

/-- A pooled entry: key, page, and use count. -/
structure PoolEntry where
  key : RKey
  page : RPage
  useCount : Nat
deriving Repr, DecidableEq

/-- Modelled from the spec (§4.1): the page pool is the list of pooled
entries, oldest first. -/
structure RPagePool where
  entries : List PoolEntry
deriving Repr, DecidableEq

/-- Modelled from the spec: `RegisterPage` takes ownership of the page and
returns a scoped reference whose use count starts at 1. -/
def RPagePool.registerPage (pool : RPagePool) (p : RPage) (k : RKey) : RPagePool :=
  ⟨pool.entries ++ [⟨k, p, 1⟩]⟩

/-- Modelled from the spec: `PreloadPage` is like register but the use count
starts at 0. -/
def RPagePool.preloadPage (pool : RPagePool) (p : RPage) (k : RKey) : RPagePool :=
  ⟨pool.entries ++ [⟨k, p, 0⟩]⟩

/-- Lookup helper: first entry matching the key whose window contains the
global index. -/
def findEntryGlobal (es : List PoolEntry) (k : RKey) (i : Nat) : Option PoolEntry :=
  es.find? (fun e => e.key == k && e.page.containsGlobal i)

/-- Modelled from the spec: `GetPage(key, globalIndex)` — linear scan for a
matching key whose window contains the index; a null-page reference on miss
(never throws); on a hit the entry's use count is incremented.  Returns the
page of the reference and the pool afterwards. -/
def RPagePool.getPageGlobal (pool : RPagePool) (k : RKey) (i : Nat) : RPage × RPagePool :=
  match findEntryGlobal pool.entries k i with
  | none => (nullRPage, pool)
  | some e =>
    (e.page, ⟨pool.entries.map (fun x =>
      if x.key == k && x.page.containsGlobal i then { x with useCount := x.useCount + 1 }
      else x)⟩)

/-- Modelled from the spec: `GetPage(key, (clusterId, localIndex))` — same as
the global lookup but by cluster-local window. -/
def RPagePool.getPageCluster (pool : RPagePool) (k : RKey) (cid idx : Nat) :
    RPage × RPagePool :=
  match pool.entries.find? (fun e => e.key == k && e.page.containsCluster cid idx) with
  | none => (nullRPage, pool)
  | some e =>
    (e.page, ⟨pool.entries.map (fun x =>
      if x.key == k && x.page.containsCluster cid idx then { x with useCount := x.useCount + 1 }
      else x)⟩)

/-- Modelled from the spec: releasing a scoped reference decrements the use
count of the referenced entry (identified here by key and page) and does not
remove the entry — eviction is the sole removal path. -/
def RPagePool.releaseRef (pool : RPagePool) (k : RKey) (p : RPage) : RPagePool :=
  ⟨pool.entries.map (fun x =>
    if x.key == k && x.page == p then { x with useCount := x.useCount - 1 } else x)⟩

/-- The removal loop of `Evict`: walk the entries oldest first, removing
entries with use count 0 while the budget lasts. -/
def evictAux : List PoolEntry → Nat → List PoolEntry
  | [], _ => []
  | e :: rest, 0 => e :: rest
  | e :: rest, n+1 =>
    if e.useCount == 0 then evictAux rest n
    else e :: evictAux rest (n+1)

/-- Modelled from the spec: `Evict(maxCount)` removes up to `maxCount`
entries with use count 0, oldest first; entries with nonzero use count are
never removed. -/
def RPagePool.evict (pool : RPagePool) (maxCount : Nat) : RPagePool :=
  ⟨evictAux pool.entries maxCount⟩

/-!
Format compatibility.  The reader-side feature-flag check of
`RPageSource::Attach` / the descriptor deserialization is not among the
given sources (only the `RNTupleCompat.FeatureFlag` test is), so the
definitions below are modelled from the spec, §4.3 and §6.
-/

/-- Modelled from the spec (§3, §4.3): the serialized header as far as this
core reads it — the declared feature flags (an ordered collection of small
non-negative integers) and the field descriptors (by name). -/
structure SerializedHeader where
  featureFlags : List Nat
  fieldNames : List String
deriving Repr, DecidableEq

/-- Modelled from the spec (§6): a successfully attached source, exposing
the dataset's fields and its pages (as a page pool). -/
structure AttachedSource where
  fieldNames : List String
  pagePool : RPagePool
deriving Repr, DecidableEq

/-- Modelled from the spec (§4.3, §6): `Source::Attach` decodes the flag set
before interpreting anything else; if any flag is outside the reader's
understood set, it fails with an error carrying the specific unrecognized
flag value(s) ("unsupported format feature"), and no field or page is made
accessible; otherwise the fields and pages become accessible. -/
def attachSource (understood : List Nat) (h : SerializedHeader) :
    Except (List Nat) AttachedSource :=
  let unknown := h.featureFlags.filter (fun f => !understood.contains f)
  if unknown.isEmpty then Except.ok ⟨h.fieldNames, ⟨[]⟩⟩
  else Except.error unknown

/-!
Claim theorems.
-/

/-- Claim C1: in `EnsureValidMapping` the spec requires the target's
break-point ancestor to be a Collection just as the source's; the source
instead re-tests `sourceBreakPoint->GetStructure()` in the check labelled
"target structure".  At this input the target's break-point is a Variant
(field 2) while the source's is a Collection (field 0), and because the
variant is mapped to the collection the mapping is accepted, where the spec
requires rejection. -/
theorem C1_target_break_point_not_checked :
    EnsureValidMapping envC1 3 fieldMapC1 = MappingResult.success ∧
    fnBreakPoint envC1 3 = some 2 ∧
    structOf envC1 2 = some ENTupleStructure.kVariant ∧
    fnBreakPoint envC1 1 = some 0 ∧
    structOf envC1 0 = some ENTupleStructure.kCollection ∧
    lookupFieldMap fieldMapC1 2 = some 0 := by decide

/-- Claim C2: attaching a stored dataset whose header declares a feature
flag outside the understood set fails, the error carries the specific
unrecognized flag value(s), and no attached source (fields, pages) is
produced. -/
theorem C2_attach_unknown_flag_fails (understood : List Nat)
    (h : SerializedHeader) (f : Nat) (hf : f ∈ h.featureFlags)
    (hu : f ∉ understood) :
    ∃ unknown : List Nat,
      attachSource understood h = Except.error unknown ∧ f ∈ unknown ∧
      ∀ s : AttachedSource, attachSource understood h ≠ Except.ok s := by
  have hmem : f ∈ h.featureFlags.filter (fun g => !understood.contains g) := by
    rw [List.mem_filter]
    exact ⟨hf, by simpa using hu⟩
  have hne : (h.featureFlags.filter (fun g => !understood.contains g)).isEmpty = false := by
    cases hfe : h.featureFlags.filter (fun g => !understood.contains g) with
    | nil => rw [hfe] at hmem; cases hmem
    | cons a l => rfl
  have key : attachSource understood h =
      Except.error (h.featureFlags.filter (fun g => !understood.contains g)) := by
    unfold attachSource
    simp only [hne, Bool.false_eq_true, if_false]
  refine ⟨h.featureFlags.filter (fun g => !understood.contains g), key, hmem, ?_⟩
  intro s
  rw [key]
  intro hcontra
  cases hcontra

/-- Witness for C2, mirroring the `RNTupleCompat.FeatureFlag` test: flag 137
is not understood, and attaching fails carrying 137. -/
theorem C2_attach_unknown_flag_fails_witness :
    (137 : Nat) ∈ ([137] : List Nat) ∧ (137 : Nat) ∉ ([0, 1] : List Nat) ∧
    ∃ unknown : List Nat,
      attachSource [0, 1] ⟨[137], ["ntpl"]⟩ = Except.error unknown ∧
      137 ∈ unknown ∧
      ∀ s : AttachedSource, attachSource [0, 1] ⟨[137], ["ntpl"]⟩ ≠ Except.ok s :=
  ⟨by decide, by decide,
   C2_attach_unknown_flag_fails [0, 1] ⟨[137], ["ntpl"]⟩ 137 (by decide) (by decide)⟩

/-- Claim C10: the id generator is strictly positive and strictly increasing
across calls, and a freshly constructed model (bare or not) has equal,
nonzero model and schema ids — so the zero placeholder id can never equal
the id of a real model. -/
theorem C10_model_ids_positive_increasing (c : Nat) :
    0 < (getNewModelId c).1 ∧
    c < (getNewModelId c).1 ∧
    (getNewModelId c).1 < (getNewModelId (getNewModelId c).2).1 ∧
    (mkBareModel c).1.modelId = (mkBareModel c).1.schemaId ∧
    (mkBareModel c).1.modelId ≠ 0 ∧
    (mkModel c).1.modelId = (mkModel c).1.schemaId ∧
    (mkModel c).1.modelId ≠ 0 := by
  refine ⟨Nat.succ_pos c, Nat.lt_succ_self c, ?_, rfl, Nat.succ_ne_zero c, rfl,
    Nat.succ_ne_zero c⟩
  simp [getNewModelId]

/-- The page of the `Pages` tests: 10 one-byte elements, global range
starting at 50, cluster 2 starting at global row 40. -/
def c7Page : RPage := ((newRPage 1 10).growUnchecked 10).setWindow 50 ⟨2, 40⟩

/-- The pool key of the `Pages` tests (column 1). -/
def c7Key : RKey := ⟨1, 0⟩

/-- A pool with `c7Page` registered under `c7Key`. -/
def c7Pool : RPagePool := (RPagePool.mk []).registerPage c7Page c7Key

/-- A pool with `c7Page` preloaded and then checked out once (use count 1). -/
def c6AfterGet : RPagePool :=
  (((RPagePool.mk []).preloadPage c7Page c7Key).getPageGlobal c7Key 55).2

/-- An entry with nonzero use count survives the eviction walk. -/
theorem mem_evictAux_of_useCount_ne_zero :
    ∀ (es : List PoolEntry) (n : Nat) (e : PoolEntry),
      e ∈ es → e.useCount ≠ 0 → e ∈ evictAux es n := by
  intro es
  induction es with
  | nil => intro n e he _; cases he
  | cons a rest ih =>
    intro n e he hz
    cases n with
    | zero => simpa [evictAux] using he
    | succ m =>
      rcases List.mem_cons.mp he with rfl | he
      · have hfz : (e.useCount == 0) = false := by simpa using hz
        simp [evictAux, hfz]
      · by_cases hcz : (a.useCount == 0) = true
        · simpa [evictAux, hcz] using ih m e he hz
        · simp only [evictAux, hcz, if_false, Bool.false_eq_true]
          exact List.mem_cons.mpr (Or.inr (ih (m + 1) e he hz))

/-- The eviction walk only removes entries; it never adds any. -/
theorem mem_of_mem_evictAux :
    ∀ (es : List PoolEntry) (n : Nat) (e : PoolEntry),
      e ∈ evictAux es n → e ∈ es := by
  intro es
  induction es with
  | nil => intro n e he; cases n <;> cases he
  | cons a rest ih =>
    intro n e he
    cases n with
    | zero => simpa [evictAux] using he
    | succ m =>
      by_cases hcz : (a.useCount == 0) = true
      · rw [evictAux, if_pos hcz] at he
        exact List.mem_cons.mpr (Or.inr (ih m e he))
      · rw [evictAux, if_neg hcz] at he
        rcases List.mem_cons.mp he with rfl | he
        · exact List.mem_cons_self _ _
        · exact List.mem_cons.mpr (Or.inr (ih (m + 1) e he))

/-- The eviction walk removes at most `n` entries. -/
theorem evictAux_length_ge :
    ∀ (es : List PoolEntry) (n : Nat), es.length - n ≤ (evictAux es n).length := by
  intro es
  induction es with
  | nil => intro n; simp [evictAux]
  | cons a rest ih =>
    intro n
    cases n with
    | zero => simp [evictAux]
    | succ m =>
      by_cases hcz : (a.useCount == 0) = true
      · rw [evictAux, if_pos hcz]
        have := ih m
        simpa [List.length_cons, Nat.succ_sub_succ] using this
      · rw [evictAux, if_neg hcz]
        have := ih (m + 1)
        simp only [List.length_cons]
        omega

/-- Claim C6: `Evict` never removes an entry with nonzero use count, removes
only existing entries and at most `maxCount` of them, and in the concrete
checkout scenario an entry with an outstanding reference survives `Evict`
while after releasing the reference a subsequent `Evict` removes it. -/
theorem C6_evict_never_removes_in_use :
    (∀ (pool : RPagePool) (n : Nat) (e : PoolEntry),
        e ∈ pool.entries → e.useCount ≠ 0 → e ∈ (pool.evict n).entries) ∧
    (∀ (pool : RPagePool) (n : Nat) (e : PoolEntry),
        e ∈ (pool.evict n).entries → e ∈ pool.entries) ∧
    (∀ (pool : RPagePool) (n : Nat),
        pool.entries.length - n ≤ ((pool.evict n).entries).length) ∧
    ((RPagePool.mk []).evict 2 = RPagePool.mk [] ∧
     c6AfterGet.evict 2 = c6AfterGet ∧
     ((c6AfterGet.releaseRef c7Key c7Page).evict 2).entries = []) := by
  refine ⟨?_, ?_, ?_, by decide, by decide, by decide⟩
  · intro pool n e he hz
    exact mem_evictAux_of_useCount_ne_zero pool.entries n e he hz
  · intro pool n e he
    exact mem_of_mem_evictAux pool.entries n e he
  · intro pool n
    exact evictAux_length_ge pool.entries n

/-- Witness for C6: the checked-out entry (use count 1) of the concrete pool
is still pooled after `Evict 2`. -/
theorem C6_evict_never_removes_in_use_witness :
    (⟨c7Key, c7Page, 1⟩ : PoolEntry) ∈ c6AfterGet.entries ∧ (1 : Nat) ≠ 0 ∧
    (⟨c7Key, c7Page, 1⟩ : PoolEntry) ∈ (c6AfterGet.evict 2).entries :=
  ⟨by decide, by decide,
   C6_evict_never_removes_in_use.1 c6AfterGet 2 ⟨c7Key, c7Page, 1⟩ (by decide) (by decide)⟩

/-- Claim C7: `GetPage` returns the null page on an empty pool, on a key
mismatch, and when the index is outside every pooled window (never throws —
it is a total function into a page value); on the concrete registered page
the hit and its global and cluster ranges are as stated. -/
theorem C7_getPage_miss_and_hit :
    (∀ (k : RKey) (i : Nat), ((RPagePool.mk []).getPageGlobal k i).1 = nullRPage) ∧
    (∀ (pool : RPagePool) (k : RKey) (i : Nat),
        (∀ e ∈ pool.entries, (e.key == k) = false) →
        (pool.getPageGlobal k i).1 = nullRPage) ∧
    (∀ (pool : RPagePool) (k : RKey) (i : Nat),
        (∀ e ∈ pool.entries, e.page.containsGlobal i = false) →
        (pool.getPageGlobal k i).1 = nullRPage) ∧
    ((c7Pool.getPageGlobal c7Key 55).1 = c7Page ∧
     c7Page.isNull = false ∧
     c7Page.globalRangeFirst = 50 ∧ c7Page.globalRangeLast = 59 ∧
     c7Page.clusterRangeFirst = 10 ∧ c7Page.clusterRangeLast = 19 ∧
     (c7Pool.getPageGlobal c7Key 5).1 = nullRPage ∧
     (c7Pool.getPageGlobal c7Key 65).1 = nullRPage ∧
     (c7Pool.getPageCluster c7Key 2 15).1 = c7Page ∧
     (c7Pool.getPageCluster c7Key 0 15).1 = nullRPage) := by
  refine ⟨?_, ?_, ?_, by decide, by decide, by decide, by decide, by decide,
    by decide, by decide, by decide, by decide, by decide⟩
  · intro k i; rfl
  · intro pool k i hk
    have hnone : findEntryGlobal pool.entries k i = none := by
      apply List.find?_eq_none.mpr
      intro x hx
      simp [hk x hx]
    unfold RPagePool.getPageGlobal
    rw [hnone]
  · intro pool k i hw
    have hnone : findEntryGlobal pool.entries k i = none := by
      apply List.find?_eq_none.mpr
      intro x hx
      simp [hw x hx]
    unfold RPagePool.getPageGlobal
    rw [hnone]

/-- Witness for C7: lookup with a mismatched key (column 0) in the concrete
pool returns the null page. -/
theorem C7_getPage_miss_and_hit_witness :
    (∀ e ∈ c7Pool.entries, (e.key == (⟨0, 0⟩ : RKey)) = false) ∧
    (c7Pool.getPageGlobal ⟨0, 0⟩ 55).1 = nullRPage :=
  ⟨by decide, C7_getPage_miss_and_hit.2.1 c7Pool ⟨0, 0⟩ 55 (by decide)⟩

/-- A fresh non-bare model (counter 0, model id 1). -/
def st0 : ModelState := (mkModel 0).1

/-- A one-leaf field tree named "x". -/
def treeX : FTree := .node "x" "float" ENTupleStructure.kLeaf 0 false []

/-- Embeds `st0` frozen. -/
def stFrozen : ModelState := Freeze st0

/-- Embeds `st0` with the field "x" added (still unfrozen). -/
def stX : ModelState := (AddField st0 (some treeX)).1

/-- Claim C8: `AddField` fails on a frozen model, on a null field, and on a
name that exactly matches an existing top-level name; any failure leaves the
model unchanged; on success the name is recorded, the field is attached as a
child of the root, and a value is bound into the default entry when one
exists. -/
theorem C8_addField_checks_and_effects (st : ModelState) (field : Option FTree) :
    (st.isFrozen = true → (AddField st field).2.isSome) ∧
    (field = none → (AddField st field).2.isSome) ∧
    (∀ f : FTree, field = some f → st.fieldNames.contains f.name = true →
        (AddField st field).2.isSome) ∧
    ((AddField st field).2.isSome → (AddField st field).1 = st) ∧
    (∀ f : FTree, field = some f → (AddField st field).2 = none →
        (AddField st field).1.fieldNames = st.fieldNames ++ [f.name] ∧
        (AddField st field).1.env = attachTree st.env 0 f ∧
        (AddField st field).1.defaultEntry = st.defaultEntry.map EntryState.addValue ∧
        (AddField st field).1.modelId = st.modelId ∧
        (AddField st field).1.schemaId = st.schemaId ∧
        (AddField st field).1.isFrozen = st.isFrozen) := by
  unfold AddField
  by_cases hf : st.isFrozen
  · simp [hf]
  · simp only [hf, if_false, Bool.false_eq_true]
    cases field with
    | none => simp
    | some f =>
      simp only []
      cases hv : ensureValidFieldNameCheck st f.name with
      | some e => simp [hv]
      | none =>
        simp only [hv]
        refine ⟨by simp [hf], by simp, ?_, by simp, ?_⟩
        · intro g hg hc
          cases hg
          unfold ensureValidFieldNameCheck at hv
          rw [hc] at hv
          by_cases hvn : validFieldName f.name <;> simp [hvn] at hv
        · intro g hg _
          cases hg
          simp [hf]

/-- Witness for C8: on the concrete frozen model adding "x" fails; on the
fresh unfrozen model it succeeds and records the name. -/
theorem C8_addField_checks_and_effects_witness :
    stFrozen.isFrozen = true ∧ (AddField stFrozen (some treeX)).2.isSome ∧
    (AddField st0 (some treeX)).2 = none ∧
    stX.fieldNames = st0.fieldNames ++ ["x"] := by
  refine ⟨by decide,
    (C8_addField_checks_and_effects stFrozen (some treeX)).1 (by decide),
    by decide, ?_⟩
  exact ((C8_addField_checks_and_effects st0 (some treeX)).2.2.2.2 treeX rfl
    (by decide)).1

/-- Counterexample to claim C5 as stated: `GetToken` performs no frozen
check — on the concrete unfrozen model holding field "x" it returns a token
instead of failing. -/
theorem C5_counterexample :
    stX.isFrozen = false ∧
    GetToken stX "x" = Except.ok ⟨0, 1⟩ := ⟨by decide, by rfl⟩

/-- Claim C5 (amended): on an unfrozen model, `GetFieldZero`, the const
`GetDefaultEntry`, `CreateEntry`, `CreateBareEntry` and `CreateBulk` fail
with a "… unfrozen model" error; `GetToken` does not consult the frozen flag
at all, and the non-const `GetDefaultEntry` checks only bareness. -/
theorem C5_unfrozen_accessors (st : ModelState) (h : st.isFrozen = false) :
    GetFieldZero st =
      Except.error "invalid attempt to get mutable zero field of unfrozen model" ∧
    GetDefaultEntryConst st =
      Except.error "invalid attempt to get default entry of unfrozen model" ∧
    CreateEntry st =
      Except.error "invalid attempt to create entry of unfrozen model" ∧
    CreateBareEntry st =
      Except.error "invalid attempt to create entry of unfrozen model" ∧
    (∀ name : String, CreateBulk st name =
      Except.error "invalid attempt to create bulk of unfrozen model") ∧
    (∀ name : String, GetToken st name = GetToken (Freeze st) name) ∧
    (∀ e : EntryState, st.defaultEntry = some e → GetDefaultEntry st = Except.ok e) := by
  refine ⟨?_, ?_, ?_, ?_, ?_, ?_, ?_⟩
  · unfold GetFieldZero; simp [h]
  · unfold GetDefaultEntryConst; simp [h]
  · unfold CreateEntry; simp [h]
  · unfold CreateBareEntry; simp [h]
  · intro name; unfold CreateBulk; simp [h]
  · intro name; unfold GetToken topLevelFields Freeze; rfl
  · intro e he; unfold GetDefaultEntry; rw [he]

/-- Witness for C5 (amended): the five frozen-checked accessors all fail on
the concrete unfrozen model `stX`. -/
theorem C5_unfrozen_accessors_witness :
    stX.isFrozen = false ∧
    GetFieldZero stX =
      Except.error "invalid attempt to get mutable zero field of unfrozen model" ∧
    CreateEntry stX =
      Except.error "invalid attempt to create entry of unfrozen model" ∧
    CreateBulk stX "x" =
      Except.error "invalid attempt to create bulk of unfrozen model" :=
  ⟨by decide, (C5_unfrozen_accessors stX (by decide)).1,
   (C5_unfrozen_accessors stX (by decide)).2.2.1,
   (C5_unfrozen_accessors stX (by decide)).2.2.2.2.1 "x"⟩

/-- The descendant-validation loop never reports `success` as a failure. -/
theorem validateSubFields_ne_some_success (combined : List FieldNode)
    (fieldMap : List (Nat × Nat)) :
    ∀ subIds : List Nat,
      validateSubFields combined fieldMap subIds ≠ some MappingResult.success := by
  intro subIds
  induction subIds with
  | nil => intro h; cases h
  | cons i rest ih =>
    intro h
    unfold validateSubFields at h
    cases hE : EnsureValidMapping combined i fieldMap <;> rw [hE] at h
    · exact ih h
    · simp at h
    · simp at h
    · simp at h

/-- Projection of `ProjAdd` results: the state component keeps the model id,
schema id and frozen flag. -/
theorem ProjAdd_preserves_ids (st : ModelState) (combined : List FieldNode)
    (base : Nat) (f : FTree) (fieldMap : List (Nat × Nat)) (subIds : List Nat) :
    ((ProjAdd st combined base f fieldMap subIds).1).modelId = st.modelId ∧
    ((ProjAdd st combined base f fieldMap subIds).1).schemaId = st.schemaId ∧
    ((ProjAdd st combined base f fieldMap subIds).1).isFrozen = st.isFrozen := by
  unfold ProjAdd
  split
  · exact ⟨rfl, rfl, rfl⟩
  · exact ⟨rfl, rfl, rfl⟩
  · exact ⟨rfl, rfl, rfl⟩
  · split
    · exact ⟨rfl, rfl, rfl⟩
    · exact ⟨rfl, rfl, rfl⟩
    · exact ⟨rfl, rfl, rfl⟩
    · exact ⟨rfl, rfl, rfl⟩
    · exact ⟨rfl, rfl, rfl⟩

/-- Embeds `ProjAdd` in pair form: ids and frozen flag preserved. -/
theorem ProjAdd_pair_ids {st st2 : ModelState} {combined : List FieldNode}
    {base : Nat} {f : FTree} {fieldMap : List (Nat × Nat)} {subIds : List Nat}
    {e : Option OpError}
    (h : ProjAdd st combined base f fieldMap subIds = (st2, e)) :
    st2.modelId = st.modelId ∧ st2.schemaId = st.schemaId ∧
    st2.isFrozen = st.isFrozen := by
  have hp := ProjAdd_preserves_ids st combined base f fieldMap subIds
  rw [h] at hp
  exact hp

/-- On any non-success verdict, `ProjAdd` leaves the model untouched. -/
theorem ProjAdd_pair_err {st st2 : ModelState} {combined : List FieldNode}
    {base : Nat} {f : FTree} {fieldMap : List (Nat × Nat)} {subIds : List Nat}
    {e : OpError}
    (h : ProjAdd st combined base f fieldMap subIds = (st2, some e)) :
    st2 = st := by
  unfold ProjAdd at h
  revert h
  split
  · intro h; exact (congrArg Prod.fst h).symm
  · intro h; exact (congrArg Prod.fst h).symm
  · intro h; exact (congrArg Prod.fst h).symm
  · split
    · intro h; exact (congrArg Prod.fst h).symm
    · intro h; exact (congrArg Prod.fst h).symm
    · intro h; exact (congrArg Prod.fst h).symm
    · intro h; cases h
    · intro h; cases h

/-- On success, `ProjAdd` validated the target and every descendant, and the
state gained exactly the new map entries and the attached projected tree. -/
theorem ProjAdd_pair_none {st st2 : ModelState} {combined : List FieldNode}
    {base : Nat} {f : FTree} {fieldMap : List (Nat × Nat)} {subIds : List Nat}
    (h : ProjAdd st combined base f fieldMap subIds = (st2, none)) :
    EnsureValidMapping combined base fieldMap = MappingResult.success ∧
    validateSubFields combined fieldMap subIds = none := by
  unfold ProjAdd at h
  revert h
  cases hE : EnsureValidMapping combined base fieldMap
  · cases hV : validateSubFields combined fieldMap subIds
    · intro _; exact ⟨rfl, rfl⟩
    · rename_i r
      cases r
      · exact absurd hV (validateSubFields_ne_some_success combined fieldMap subIds)
      · intro h; cases h
      · intro h; cases h
      · intro h; cases h
  · intro h; cases h
  · intro h; cases h
  · intro h; cases h

/-- Claim C3: `AddProjectedField` is all-or-nothing — on any failure the
model (field-name set, projected map, projected field-zero tree, everything)
is unchanged; an unresolvable source path fails the operation; and success
implies the mapping of the target and of every descendant was validated. -/
theorem C3_addProjectedField_all_or_nothing (st : ModelState) (field : Option FTree)
    (mapping : String → String) :
    ((AddProjectedField st field mapping).2.isSome →
        (AddProjectedField st field mapping).1 = st) ∧
    (∀ f : FTree, field = some f → st.isFrozen = false →
        FindField st (mapping f.name) = none →
        (AddProjectedField st field mapping).2.isSome) ∧
    (∀ f : FTree, field = some f → (AddProjectedField st field mapping).2 = none →
        ∃ src0 pairs,
          FindField st (mapping f.name) = some src0 ∧
          resolveSources st (st.env ++ (flattenTree none st.env.length f).1) mapping
              f.name ((List.range ((flattenTree none st.env.length f).1.length - 1)).map
                (fun k => st.env.length + 1 + k)) = Except.ok pairs ∧
          EnsureValidMapping (st.env ++ (flattenTree none st.env.length f).1)
              st.env.length ((st.env.length, src0) :: pairs) = MappingResult.success ∧
          validateSubFields (st.env ++ (flattenTree none st.env.length f).1)
              ((st.env.length, src0) :: pairs)
              ((List.range ((flattenTree none st.env.length f).1.length - 1)).map
                (fun k => st.env.length + 1 + k)) = none) := by
  cases field with
  | none =>
    refine ⟨?_, ?_, ?_⟩
    · intro _
      unfold AddProjectedField
      split
      · rfl
      · rfl
    · intro f hf; cases hf
    · intro f hf; cases hf
  | some f =>
    refine ⟨?_, ?_, ?_⟩
    · intro herr
      unfold AddProjectedField at herr ⊢
      cases hfz : st.isFrozen with
      | true => simp [hfz]
      | false =>
        simp only [hfz, Bool.false_eq_true, if_false] at herr ⊢
        cases hFF : FindField st (mapping f.name) with
        | none => simp [hFF]
        | some src0 =>
          simp only [hFF] at herr ⊢
          cases hRS : resolveSources st (st.env ++ (flattenTree none st.env.length f).1)
              mapping f.name
              ((List.range ((flattenTree none st.env.length f).1.length - 1)).map
                (fun k => st.env.length + 1 + k)) with
          | error e => simp [hRS]
          | ok pairs =>
            simp only [hRS] at herr ⊢
            cases hNC : ensureValidFieldNameCheck st f.name with
            | some e => simp [hNC]
            | none =>
              simp only [hNC] at herr ⊢
              rcases hPA : ProjAdd st (st.env ++ (flattenTree none st.env.length f).1)
                  st.env.length f ((st.env.length, src0) :: pairs)
                  ((List.range ((flattenTree none st.env.length f).1.length - 1)).map
                    (fun k => st.env.length + 1 + k)) with ⟨st2, e2⟩
              cases e2 with
              | some e =>
                simp only [hPA]
                exact ProjAdd_pair_err hPA
              | none =>
                rw [hPA] at herr
                simp at herr
    · intro g hg hfz hFF
      cases hg
      unfold AddProjectedField
      simp [hfz, hFF]
    · intro g hg hok
      cases hg
      unfold AddProjectedField at hok
      cases hfz : st.isFrozen with
      | true => rw [hfz] at hok; simp at hok
      | false =>
        simp only [hfz, Bool.false_eq_true, if_false] at hok
        cases hFF : FindField st (mapping f.name) with
        | none => simp only [hFF] at hok; simp at hok
        | some src0 =>
          simp only [hFF] at hok
          cases hRS : resolveSources st (st.env ++ (flattenTree none st.env.length f).1)
              mapping f.name
              ((List.range ((flattenTree none st.env.length f).1.length - 1)).map
                (fun k => st.env.length + 1 + k)) with
          | error e => simp only [hRS] at hok; simp at hok
          | ok pairs =>
            simp only [hRS] at hok
            cases hNC : ensureValidFieldNameCheck st f.name with
            | some e => simp only [hNC] at hok; simp at hok
            | none =>
              simp only [hNC] at hok
              rcases hPA : ProjAdd st (st.env ++ (flattenTree none st.env.length f).1)
                  st.env.length f ((st.env.length, src0) :: pairs)
                  ((List.range ((flattenTree none st.env.length f).1.length - 1)).map
                    (fun k => st.env.length + 1 + k)) with ⟨st2, e2⟩
              cases e2 with
              | some e => simp only [hPA] at hok; simp at hok
              | none =>
                have hv := ProjAdd_pair_none hPA
                exact ⟨src0, pairs, rfl, rfl, hv.1, hv.2⟩

/-- Witness for C3: on the fresh model, a mapping function that resolves to
a nonexistent source fails the whole operation and leaves the model exactly
as it was. -/
theorem C3_addProjectedField_all_or_nothing_witness :
    st0.isFrozen = false ∧
    FindField st0 ((fun _ => "nosuch") treeX.name) = none ∧
    (AddProjectedField st0 (some treeX) (fun _ => "nosuch")).2.isSome ∧
    (AddProjectedField st0 (some treeX) (fun _ => "nosuch")).1 = st0 := by
  have h2 := (C3_addProjectedField_all_or_nothing st0 (some treeX)
    (fun _ => "nosuch")).2.1 treeX rfl (by decide) (by decide)
  exact ⟨by decide, by decide, h2,
    (C3_addProjectedField_all_or_nothing st0 (some treeX) (fun _ => "nosuch")).1 h2⟩

/-- Claim C9: after `BeginUpdate` the model id is zero and the model is
unfrozen; `CommitUpdate` re-freezes, restores a nonzero model id equal to
the schema id, and calls the sink's `UpdateSchema` with the staged changeset
and the writer's current entry count exactly when the changeset is
non-empty. -/
theorem C9_updater_begin_commit (u : Updater) (cs : ChangesetState) (n : Nat)
    (h0 : u.newModelId = 0) (hf : u.model.isFrozen = true) :
    (BeginUpdate u).model.modelId = 0 ∧
    (BeginUpdate u).model.isFrozen = false ∧
    ((CommitUpdate { BeginUpdate u with changeset := cs } n).1.model.isFrozen = true ∧
     (CommitUpdate { BeginUpdate u with changeset := cs } n).1.model.modelId =
       (CommitUpdate { BeginUpdate u with changeset := cs } n).1.model.schemaId ∧
     (CommitUpdate { BeginUpdate u with changeset := cs } n).1.model.modelId ≠ 0) ∧
    (cs.isEmpty = true → (CommitUpdate { BeginUpdate u with changeset := cs } n).2 = none) ∧
    (cs.isEmpty = false →
      (CommitUpdate { BeginUpdate u with changeset := cs } n).2 = some ⟨cs, n⟩) := by
  by_cases hcs : cs.isEmpty = true
  · simp [BeginUpdate, CommitUpdate, Unfreeze, Freeze, getNewModelId, hf, h0, hcs]
  · have hcs' : cs.isEmpty = false := by
      cases h : cs.isEmpty
      · rfl
      · exact absurd h hcs
    simp [BeginUpdate, CommitUpdate, Unfreeze, Freeze, getNewModelId, hf, h0, hcs']

/-- Witness for C9: on a concrete frozen model with a fresh updater and one
staged field, `BeginUpdate` zeroes the model id and `CommitUpdate` produces
the sink call with the writer's entry count. -/
theorem C9_updater_begin_commit_witness :
    (mkUpdater stFrozen 1).newModelId = 0 ∧
    (mkUpdater stFrozen 1).model.isFrozen = true ∧
    (BeginUpdate (mkUpdater stFrozen 1)).model.modelId = 0 ∧
    (CommitUpdate { BeginUpdate (mkUpdater stFrozen 1) with
        changeset := ⟨["y"], []⟩ } 7).2 = some ⟨⟨["y"], []⟩, 7⟩ := by
  refine ⟨by decide, by decide, ?_, ?_⟩
  · exact (C9_updater_begin_commit (mkUpdater stFrozen 1) ⟨["y"], []⟩ 7
      (by decide) (by decide)).1
  · exact (C9_updater_begin_commit (mkUpdater stFrozen 1) ⟨["y"], []⟩ 7
      (by decide) (by decide)).2.2.2.2 (by decide)

/-- Embeds `AddField` never changes the model id, the schema id, or the frozen
flag. -/
theorem AddField_preserves_ids (st : ModelState) (f : Option FTree) :
    ((AddField st f).1).modelId = st.modelId ∧
    ((AddField st f).1).schemaId = st.schemaId ∧
    ((AddField st f).1).isFrozen = st.isFrozen := by
  unfold AddField
  split
  · exact ⟨rfl, rfl, rfl⟩
  · split
    · exact ⟨rfl, rfl, rfl⟩
    · split
      · exact ⟨rfl, rfl, rfl⟩
      · exact ⟨rfl, rfl, rfl⟩

/-- Embeds `AddProjectedField` never changes the model id, the schema id, or the
frozen flag. -/
theorem AddProjectedField_preserves_ids (st : ModelState) (field : Option FTree)
    (mapping : String → String) :
    ((AddProjectedField st field mapping).1).modelId = st.modelId ∧
    ((AddProjectedField st field mapping).1).schemaId = st.schemaId ∧
    ((AddProjectedField st field mapping).1).isFrozen = st.isFrozen := by
  unfold AddProjectedField
  split
  · exact ⟨rfl, rfl, rfl⟩
  · split
    · exact ⟨rfl, rfl, rfl⟩
    · dsimp only
      split
      · exact ⟨rfl, rfl, rfl⟩
      · split
        · exact ⟨rfl, rfl, rfl⟩
        · split
          · exact ⟨rfl, rfl, rfl⟩
          · split
            · rename_i st2 e hPA
              exact ProjAdd_pair_ids hPA
            · rename_i st2 hPA
              have hp := ProjAdd_pair_ids hPA
              exact hp

/-- Embeds `SetDescription` never changes the model id, the schema id, or the
frozen flag. -/
theorem SetDescription_preserves_ids (st : ModelState) (d : String) :
    ((SetDescription st d).1).modelId = st.modelId ∧
    ((SetDescription st d).1).schemaId = st.schemaId ∧
    ((SetDescription st d).1).isFrozen = st.isFrozen := by
  unfold SetDescription
  split
  · exact ⟨rfl, rfl, rfl⟩
  · exact ⟨rfl, rfl, rfl⟩

/-- The id invariant transports along id-preserving operations. -/
theorem inv_transport {m m' : ModelState} (h1 : m'.modelId = m.modelId)
    (h2 : m'.schemaId = m.schemaId) (h3 : m'.isFrozen = m.isFrozen) :
    (m.modelId = m.schemaId ∨ m.modelId = 0 ∨ m.isFrozen = true) →
    (m'.modelId = m'.schemaId ∨ m'.modelId = 0 ∨ m'.isFrozen = true) := by
  intro h
  rw [h1, h2, h3]
  exact h

/-- The id invariant over all reachable states: model id and schema id agree
except when the model id is the zero placeholder of an open update window,
or the model is frozen (a clone of a frozen model keeps the source's schema
id next to a fresh model id). -/
theorem reached_id_invariant {u : Updater} (hu : Reached u) :
    u.model.modelId = u.model.schemaId ∨ u.model.modelId = 0 ∨
    u.model.isFrozen = true := by
  induction hu with
  | create c => exact Or.inl rfl
  | createBare c => exact Or.inl rfl
  | freeze h ih => exact Or.inr (Or.inr rfl)
  | unfreeze h ih =>
    rename_i u'
    dsimp only
    unfold Unfreeze
    by_cases hf : u'.model.isFrozen = true
    · simp [hf, getNewModelId]
    · have hf' : u'.model.isFrozen = false := by
        cases h2 : u'.model.isFrozen
        · rfl
        · exact absurd h2 hf
      simp only [hf', Bool.not_false, if_true]
      rcases ih with h3 | h3 | h3
      · exact Or.inl h3
      · exact Or.inr (Or.inl h3)
      · rw [hf'] at h3
        cases h3
  | addField f h ih =>
    rename_i u'
    dsimp only
    rcases AddField_preserves_ids u'.model f with ⟨h1, h2, h3⟩
    exact inv_transport h1 h2 h3 ih
  | addProjectedField f mp h ih =>
    rename_i u'
    dsimp only
    rcases AddProjectedField_preserves_ids u'.model f mp with ⟨h1, h2, h3⟩
    exact inv_transport h1 h2 h3 ih
  | setDescription d h ih =>
    rename_i u'
    dsimp only
    rcases SetDescription_preserves_ids u'.model d with ⟨h1, h2, h3⟩
    exact inv_transport h1 h2 h3 ih
  | cloneNew h ih =>
    rename_i u'
    dsimp only [mkUpdater]
    unfold CloneModel
    by_cases hf : u'.model.isFrozen = true
    · simp [hf, getNewModelId]
    · have hf' : u'.model.isFrozen = false := by
        cases h2 : u'.model.isFrozen
        · rfl
        · exact absurd h2 hf
      simp [hf', getNewModelId]
  | cloneOrig h ih => exact ih
  | beginUpdate h hz ih =>
    rename_i u'
    rcases hU : Unfreeze u'.model u'.counter with ⟨m, c'⟩
    right; left
    show (BeginUpdate u').model.modelId = 0
    unfold BeginUpdate
    rw [hU]
    exact hz
  | commitUpdate n h ih =>
    rename_i u'
    right; right
    unfold CommitUpdate
    split
    · rfl
    · rfl
  | updAddField f h ih =>
    rename_i u'
    unfold UpdaterAddField
    rcases hA : AddField u'.model f with ⟨m, e⟩
    rcases AddField_preserves_ids u'.model f with ⟨h1, h2, h3⟩
    rw [hA] at h1 h2 h3
    cases e with
    | some msg => exact inv_transport h1 h2 h3 ih
    | none => exact inv_transport h1 h2 h3 ih
  | updAddProjectedField f mp h ih =>
    rename_i u'
    unfold UpdaterAddProjectedField
    rcases hA : AddProjectedField u'.model f mp with ⟨m, e⟩
    rcases AddProjectedField_preserves_ids u'.model f mp with ⟨h1, h2, h3⟩
    rw [hA] at h1 h2 h3
    cases e with
    | some msg => exact inv_transport h1 h2 h3 ih
    | none => exact inv_transport h1 h2 h3 ih

/-- The clone of the frozen fresh model: new model id 2, kept schema id 1. -/
def c4Clone : ModelState := (CloneModel stFrozen 1).1

/-- Counterexample to claim C4 as stated: the clone of a frozen model is a
reachable state whose model id (2) differs from its schema id (1) although
the model id is not the zero sentinel; moreover the schema id changes on
`Unfreeze` with no shape change, and `AddField` leaves the schema id
untouched. -/
theorem C4_counterexample :
    Reached (mkUpdater c4Clone 2) ∧
    c4Clone.modelId = 2 ∧ c4Clone.schemaId = 1 ∧
    c4Clone.modelId ≠ c4Clone.schemaId ∧ c4Clone.modelId ≠ 0 ∧
    (Unfreeze stFrozen 1).1.schemaId = 2 ∧ st0.schemaId = 1 ∧
    ((AddField st0 (some treeX)).1).schemaId = st0.schemaId := by
  refine ⟨?_, by decide, by decide, by decide, by decide, by decide, by decide,
    by decide⟩
  exact Reached.cloneNew (Reached.freeze (Reached.create 0))

/-- Claim C4 (amended): over every reachable state, model id and schema id
are equal unless the model id is the zero sentinel of an open update window
or the model is frozen (a clone of a frozen model keeps the source's schema
id next to its fresh model id); the schema id is unchanged by a simple
re-freeze and also by `AddField` and `AddProjectedField` — only `Unfreeze`
assigns a fresh one. -/
theorem C4_id_invariant :
    (∀ u : Updater, Reached u →
        u.model.modelId = u.model.schemaId ∨ u.model.modelId = 0 ∨
        u.model.isFrozen = true) ∧
    (∀ st : ModelState, (Freeze st).modelId = st.modelId ∧
        (Freeze st).schemaId = st.schemaId) ∧
    (∀ (st : ModelState) (f : Option FTree),
        ((AddField st f).1).schemaId = st.schemaId) ∧
    (∀ (st : ModelState) (f : Option FTree) (mp : String → String),
        ((AddProjectedField st f mp).1).schemaId = st.schemaId) ∧
    (∀ (st : ModelState) (c : Nat), st.isFrozen = true →
        (Unfreeze st c).1.schemaId = c + 1 ∧ (Unfreeze st c).1.modelId = c + 1) := by
  refine ⟨fun u hu => reached_id_invariant hu, fun st => ⟨rfl, rfl⟩,
    fun st f => (AddField_preserves_ids st f).2.1,
    fun st f mp => (AddProjectedField_preserves_ids st f mp).2.1,
    fun st c hf => ?_⟩
  unfold Unfreeze
  simp [hf, getNewModelId]

/-- Witness for C4 (amended): the invariant holds at the concrete reachable
state produced by create-then-freeze. -/
theorem C4_id_invariant_witness :
    ({ mkUpdater (mkModel 0).1 (mkModel 0).2 with
        model := Freeze (mkUpdater (mkModel 0).1 (mkModel 0).2).model } : Updater).model.modelId =
      ({ mkUpdater (mkModel 0).1 (mkModel 0).2 with
        model := Freeze (mkUpdater (mkModel 0).1 (mkModel 0).2).model } : Updater).model.schemaId ∨
    ({ mkUpdater (mkModel 0).1 (mkModel 0).2 with
        model := Freeze (mkUpdater (mkModel 0).1 (mkModel 0).2).model } : Updater).model.modelId = 0 ∨
    ({ mkUpdater (mkModel 0).1 (mkModel 0).2 with
        model := Freeze (mkUpdater (mkModel 0).1 (mkModel 0).2).model } : Updater).model.isFrozen = true :=
  C4_id_invariant.1 _ (Reached.freeze (Reached.create 0))
